import Mathlib

/-!
Verification development for the `logmonkey` asynchronous logging package
(Go).  The definitions below are a shallow embedding of the package's
source file, translated declaration by declaration:

* `LogLevel`, the level constants, `LogLevel.String`, `GetLevelByName`;
* `DefaultLogFormatter.FormatMessage` (the `fmt.Sprintf`-based formatter);
* `Logger` with its bounded message channel (a Go buffered channel of
  capacity `LoggerBufferSize`, modelled as a `List String` with the
  capacity enforced at the send site exactly as the non-blocking
  `select`/`default` in `Logger.Log` does);
* the worker loop `listen`, modelled as a step function `listenStep` over
  the two `select` events (message available / stop signal), iterated by
  `runWorker`;
* the registry operation `GetLogger` and the shutdown coordinator
  `FlushAllLoggers`.

Side effects (appender writes, formatter invocations, `time.Now`,
`fmt.Sprintf` interpolation, channel sends) are made observable as a trace
of `LogAction` values, so that source statements such as "the appender was
invoked exactly once" become statements about the trace.

Abstractions, each noted at its definition: wall-clock instants are `Nat`
nanosecond counts (`time.Time` values enter only through `time.Now`, the
difference `Sub`, and the fixed-layout rendering `ts.Format`, whose
calendar digits no property below depends on); `fmt.Sprintf`
interpolation substitutes pre-rendered argument strings at `%s` verbs.
-/

/-- `type LogLevel int` — Go defines the level type as a plain `int`. -/
abbrev LogLevel := Int

/-- `TRACE LogLevel = iota` -/
def TRACE : LogLevel := 0

/-- `DEBUG` -/
def DEBUG : LogLevel := 1

/-- `INFO` -/
def INFO : LogLevel := 2

/-- `WARNING` -/
def WARNING : LogLevel := 3

/-- `ERROR` -/
def ERROR : LogLevel := 4

/-- `const LoggerBufferSize int = 1024` — capacity of every logger's
buffered message channel (`make(chan string, LoggerBufferSize)`). -/
def LoggerBufferSize : Nat := 1024

/-- `const GracefulLoggerShutdownTimeMc = 100 * time.Millisecond` — the
value of this Go `time.Duration` constant in nanoseconds
(`time.Duration` counts nanoseconds, `time.Millisecond = 1000000`). -/
def GracefulLoggerShutdownTimeMc : Nat := 100 * 1000000

/-- `func (l LogLevel) String() string` — Go builds a map from the five
levels to their names and indexes it; a key absent from a Go map yields
the value type's zero value, here the empty string. -/
def LogLevel.String (l : LogLevel) : String :=
  if l = TRACE then "TRACE"
  else if l = DEBUG then "DEBUG"
  else if l = INFO then "INFO"
  else if l = WARNING then "WARNING"
  else if l = ERROR then "ERROR"
  else ""

/-- ASCII case folding of one character, the fragment of Go
`strings.ToUpper` exercised by the five level names (all ASCII). -/
def toUpperChar (c : Char) : Char :=
  if 'a' ≤ c ∧ c ≤ 'z' then Char.ofNat (c.toNat - 32) else c

/-- `strings.ToUpper` restricted to ASCII letters (see `toUpperChar`). -/
def toUpperS (s : String) : String :=
  String.mk (s.toList.map toUpperChar)

/-- `func GetLevelByName(name string) LogLevel` — upper-cases the name and
indexes a map from the five canonical names to the levels; a key absent
from a Go map yields the value type's zero value, here `LogLevel(0)`,
i.e. `TRACE`. -/
def GetLevelByName (name : String) : LogLevel :=
  let upper := toUpperS name
  if upper = "TRACE" then TRACE
  else if upper = "DEBUG" then DEBUG
  else if upper = "INFO" then INFO
  else if upper = "WARNING" then WARNING
  else if upper = "ERROR" then ERROR
  else TRACE

/-- `%s`-verb substitution underlying `fmt.Sprintf`: each `%s` in the
format consumes the next pre-rendered argument.  (Go's diagnostic
renderings for missing or surplus operands are not modelled; no property
below exercises them.) -/
def sprintfChars : List Char → List String → List Char
  | [], _ => []
  | '%' :: 's' :: rest, a :: args => a.toList ++ sprintfChars rest args
  | c :: rest, args => c :: sprintfChars rest args

/-- `fmt.Sprintf` over `%s` verbs with pre-rendered arguments. -/
def Sprintf (format : String) (args : List String) : String :=
  String.mk (sprintfChars format.toList args)

/-- Rendering of a `time.Time` under the fixed layout
`"2006-01-02T15:04:05.000000000"`.  Instants are abstract nanosecond
counts and the calendar rendering is abstracted to an injective
placeholder; no claim below depends on the rendered digits. -/
def timeFormatLayout (ts : Nat) : String :=
  toString ts

/-- `type DefaultLogFormatter struct { Format string }` -/
structure DefaultLogFormatter where
  Format : String
deriving Repr, DecidableEq

/-- `func (lf *DefaultLogFormatter) FormatMessage(...)` —
`fmt.Sprintf(lf.Format, ts.Format(layout), name, level, message)`; the
`level` operand is rendered through its `String()` method by `%s`. -/
def DefaultLogFormatter.FormatMessage (lf : DefaultLogFormatter)
    (message : String) (name : String) (level : LogLevel) (ts : Nat) : String :=
  Sprintf lf.Format [timeFormatLayout ts, name, LogLevel.String level, message]

/-- The `LogFormatter` interface.  The package's default formatter is the
only implementation any claim exercises (`JsonLogFormatter` is not
referenced by any claim and is not modelled). -/
inductive LogFormatter where
  | defaultFormatter (lf : DefaultLogFormatter)
deriving Repr, DecidableEq

/-- Interface dispatch of `FormatMessage`. -/
def LogFormatter.FormatMessage : LogFormatter → String → String → LogLevel → Nat → String
  | LogFormatter.defaultFormatter lf, message, name, level, ts =>
      lf.FormatMessage message name level ts

/-- The `LogAppender` interface; `ConsoleLogAppender` is its only
implementation in the package. -/
inductive LogAppender where
  | console
deriving Repr, DecidableEq

/-- Observable effects of the log-call path and the worker loop. -/
inductive LogAction where
  /-- `ts := time.Now()` in `Logger.Log`. -/
  | captureTs (ts : Nat)
  /-- `formatted := fmt.Sprintf(message, obj...)` in `Logger.Log`. -/
  | interpolate (message : String) (obj : List String)
  /-- an invocation of the formatter capability. -/
  | formatCall (message : String) (name : String) (level : LogLevel) (ts : Nat)
  /-- a successful buffered-channel send `log.messageChannel <- s`. -/
  | enqueue (s : String)
  /-- an appender invocation `ConsumeMessage(s)`. -/
  | appendCall (s : String)
deriving Repr, DecidableEq

/-- `func (la *ConsoleLogAppender) ConsumeMessage(str string)` — the
write to standard output is observable as an `appendCall` action. -/
def LogAppender.ConsumeMessage (_ : LogAppender) (str : String) : LogAction :=
  LogAction.appendCall str

/-- `type Logger struct` — the buffered channel `messageChannel` is the
list of pending formatted strings, head oldest; its capacity is the
package constant `LoggerBufferSize`, enforced at the send site in
`Logger.Log`.  The `closed` channel is modelled by the worker event
`WorkerEvent.stopSignal`. -/
structure Logger where
  name : String
  level : LogLevel
  appender : LogAppender
  formatter : LogFormatter
  messageChannel : List String
deriving Repr, DecidableEq

/-- The appender invocations recorded in a trace, in order. -/
def appendedStrings (tr : List LogAction) : List String :=
  tr.filterMap fun a =>
    match a with
    | LogAction.appendCall s => some s
    | _ => none

/-- The successful channel sends recorded in a trace, in order. -/
def enqueuedStrings (tr : List LogAction) : List String :=
  tr.filterMap fun a =>
    match a with
    | LogAction.enqueue s => some s
    | _ => none

/-- `func (log *Logger) Log(message string, level LogLevel, obj ...interface{})`.

```
if log.level > level { return }
ts := time.Now()
formatted := fmt.Sprintf(message, obj...)
formattedMessage := log.formatter.FormatMessage(formatted, log.name, level, ts)
select {
case log.messageChannel <- formattedMessage:
default:
    channelFullMsg := log.formatter.FormatMessage("logger queue is full", log.name, ERROR, ts)
    log.appender.ConsumeMessage(channelFullMsg)
}
```

The non-blocking send on the buffered channel succeeds exactly when the
channel holds fewer than `LoggerBufferSize` strings; otherwise the
`default` arm runs.  `ts` is the instant `time.Now()` returns, passed in
as a parameter.  Returns the updated logger and the trace of effects. -/
def Logger.Log (log : Logger) (message : String) (level : LogLevel)
    (obj : List String) (ts : Nat) : Logger × List LogAction :=
  if log.level > level then (log, [])
  else
    let formatted := Sprintf message obj
    let formattedMessage := log.formatter.FormatMessage formatted log.name level ts
    let tr := [LogAction.captureTs ts, LogAction.interpolate message obj,
               LogAction.formatCall formatted log.name level ts]
    if log.messageChannel.length < LoggerBufferSize then
      ({ log with messageChannel := log.messageChannel ++ [formattedMessage] },
       tr ++ [LogAction.enqueue formattedMessage])
    else
      let channelFullMsg := log.formatter.FormatMessage "logger queue is full" log.name ERROR ts
      (log, tr ++ [LogAction.formatCall "logger queue is full" log.name ERROR ts,
                   log.appender.ConsumeMessage channelFullMsg])

/-- The two events the worker's `select` can wake on: a string available
on `messageChannel`, or a Boolean received on `closed`. -/
inductive WorkerEvent where
  | msgAvailable
  | stopSignal (closes : Bool) (ts : Nat)
deriving Repr, DecidableEq

/-- `fmt.Sprintf("Logger was interrupted with %d messages in queue", count)` -/
def interruptedMsg (count : Nat) : String :=
  "Logger was interrupted with " ++ toString count ++ " messages in queue"

/-- One iteration of `func (log *Logger) listen()`.

```
select {
case str := <-log.messageChannel:
    log.appender.ConsumeMessage(str)
case closes := <-log.closed:
    if closes {
        if len(log.messageChannel) > 0 {
            count := len(log.messageChannel)
            msg := fmt.Sprintf("Logger was interrupted with %d messages in queue", count)
            str := log.formatter.FormatMessage(msg, log.name, WARNING, time.Now())
            log.appender.ConsumeMessage(str)
        }
        return
    }
}
```

Returns the logger, the trace of the iteration, and whether the worker
returned (terminated).  A `msgAvailable` event with an empty channel
represents a `select` arm that cannot fire and is a no-op. -/
def listenStep (log : Logger) : WorkerEvent → Logger × List LogAction × Bool
  | WorkerEvent.msgAvailable =>
      match log.messageChannel with
      | [] => (log, [], false)
      | str :: rest =>
          ({ log with messageChannel := rest },
           [log.appender.ConsumeMessage str], false)
  | WorkerEvent.stopSignal closes ts =>
      if closes then
        if log.messageChannel.length > 0 then
          let count := log.messageChannel.length
          let msg := interruptedMsg count
          let str := log.formatter.FormatMessage msg log.name WARNING ts
          (log, [LogAction.formatCall msg log.name WARNING ts,
                 log.appender.ConsumeMessage str], true)
        else (log, [], true)
      else (log, [], false)

/-- The worker loop `listen`: iterate `listenStep` over a sequence of
events, stopping when an iteration returns. -/
def runWorker (log : Logger) : List WorkerEvent → Logger × List LogAction × Bool
  | [] => (log, [], false)
  | ev :: evs =>
      let r1 := listenStep log ev
      if r1.2.2 then (r1.1, r1.2.1, true)
      else
        let r2 := runWorker r1.1 evs
        (r2.1, r1.2.1 ++ r2.2.1, r2.2.2)

/-- One producer-side log call: the arguments of an invocation of
`Logger.Log` together with the instant `time.Now()` returns in it. -/
structure LogCall where
  message : String
  level : LogLevel
  args : List String
  ts : Nat
deriving Repr, DecidableEq

/-- A sequence of `Logger.Log` calls on one logger, traces concatenated. -/
def logBatch (log : Logger) : List LogCall → Logger × List LogAction
  | [] => (log, [])
  | c :: rest =>
      let r1 := log.Log c.message c.level c.args c.ts
      let r2 := logBatch r1.1 rest
      (r2.1, r1.2 ++ r2.2)

/-- The formatted string `Logger.Log` builds for each call of a batch:
the payload after `fmt.Sprintf` interpolation, rendered by the logger's
formatter with the logger's name and the call's level and instant. -/
def expectedOutputs (formatter : LogFormatter) (name : String) : List LogCall → List String
  | [] => []
  | c :: rest =>
      formatter.FormatMessage (Sprintf c.message c.args) name c.level c.ts ::
        expectedOutputs formatter name rest

/-- Registry lookup, `loggers[name]` on the package-level map. -/
def lookupLogger : List (String × Logger) → String → Option Logger
  | [], _ => none
  | p :: rest, name => if p.1 = name then some p.2 else lookupLogger rest name

/-- `func GetLogger(name string) *Logger` — lookup-or-create on the
package-level `loggers` map.  On creation the logger is initialised with
threshold `INFO`, the default console appender, the default formatter
with pattern `"%s - [%s] %s %s"`, and an empty buffered channel of
capacity `LoggerBufferSize`, and its worker goroutine is started
(`go logger.listen()`), reported here as the trailing `Bool`. -/
def GetLogger (loggers : List (String × Logger)) (name : String) :
    List (String × Logger) × Logger × Bool :=
  match lookupLogger loggers name with
  | some lg => (loggers, lg, false)
  | none =>
      let logger : Logger :=
        { name := name
          level := INFO
          appender := LogAppender.console
          formatter := LogFormatter.defaultFormatter { Format := "%s - [%s] %s %s" }
          messageChannel := [] }
      (loggers ++ [(name, logger)], logger, true)

/-- The logger `GetLogger` creates for a fresh name. -/
def defaultLoggerFor (name : String) : Logger :=
  { name := name
    level := INFO
    appender := LogAppender.console
    formatter := LogFormatter.defaultFormatter { Format := "%s - [%s] %s %s" }
    messageChannel := [] }

/-- The loop guard of `FlushAllLoggers`, exactly as written:
`time.Now().Sub(flushStart)/time.Millisecond < timeToWait`.  The elapsed
`time.Duration` (a nanosecond count) is integer-divided by
`time.Millisecond = 1000000` and the quotient is compared against
`timeToWait`, itself a nanosecond count. -/
def flushGuard (elapsed : Nat) (timeToWait : Nat) : Bool :=
  decide (elapsed / 1000000 < timeToWait)

/-- One scan of the registry in `FlushAllLoggers`: every logger whose
channel is empty is sent `true` on `closed` and deleted from the map;
loggers with pending messages are kept. -/
def flushScan : List (String × Logger) → List (String × Logger)
  | [] => []
  | (name, logger) :: rest =>
      if logger.messageChannel.length = 0 then flushScan rest
      else (name, logger) :: flushScan rest

/-- The `for` loop of `FlushAllLoggers`.  `clock` supplies the elapsed
nanoseconds observed at each evaluation of the loop guard (`time.Now()`
is external input); when `clock` is exhausted the run is cut off and the
current registry returned. -/
def flushLoop (timeToWait : Nat) : List Nat → List (String × Logger) → List (String × Logger)
  | [], loggers => loggers
  | elapsed :: clock, loggers =>
      if flushGuard elapsed timeToWait then
        let remaining := flushScan loggers
        if remaining.length = 0 then remaining
        else flushLoop timeToWait clock remaining
      else loggers

/-- `func FlushAllLoggers()` —
`timeToWait := GracefulLoggerShutdownTimeMc * time.Duration(len(loggers))`
followed by the guarded scan loop (see `flushLoop`, `flushGuard`,
`flushScan`). -/
def FlushAllLoggers (loggers : List (String × Logger)) (clock : List Nat) :
    List (String × Logger) :=
  flushLoop (GracefulLoggerShutdownTimeMc * loggers.length) clock loggers

/-!  ## Theorems  -/

/-- C7: for every one of the five supported level names in any
letter-casing, `GetLevelByName` returns the expected rank (TRACE=0,
DEBUG=1, INFO=2, WARNING=3, ERROR=4); for every one of the five level
values, `String` returns the canonical uppercase spelling; and the two
lookups round-trip in both directions.  A string is a letter-casing of a
canonical name exactly when `toUpperS` (the embedding of
`strings.ToUpper` on these ASCII names) maps it to that name. -/
theorem C7_level_name_roundtrip :
    (∀ s : String, toUpperS s = "TRACE" → GetLevelByName s = TRACE) ∧
    (∀ s : String, toUpperS s = "DEBUG" → GetLevelByName s = DEBUG) ∧
    (∀ s : String, toUpperS s = "INFO" → GetLevelByName s = INFO) ∧
    (∀ s : String, toUpperS s = "WARNING" → GetLevelByName s = WARNING) ∧
    (∀ s : String, toUpperS s = "ERROR" → GetLevelByName s = ERROR) ∧
    (LogLevel.String TRACE = "TRACE" ∧ LogLevel.String DEBUG = "DEBUG" ∧
     LogLevel.String INFO = "INFO" ∧ LogLevel.String WARNING = "WARNING" ∧
     LogLevel.String ERROR = "ERROR") ∧
    (GetLevelByName (LogLevel.String TRACE) = TRACE ∧
     GetLevelByName (LogLevel.String DEBUG) = DEBUG ∧
     GetLevelByName (LogLevel.String INFO) = INFO ∧
     GetLevelByName (LogLevel.String WARNING) = WARNING ∧
     GetLevelByName (LogLevel.String ERROR) = ERROR) := by
  refine ⟨?_, ?_, ?_, ?_, ?_, by decide, by decide⟩ <;>
    exact fun s h => by simp [GetLevelByName, h]

/-- Witness for C7 at concrete casings of all five names. -/
theorem C7_level_name_roundtrip_witness :
    GetLevelByName "tRaCe" = TRACE ∧ GetLevelByName "DebuG" = DEBUG ∧
    GetLevelByName "infO" = INFO ∧ GetLevelByName "Warning" = WARNING ∧
    GetLevelByName "error" = ERROR :=
  ⟨C7_level_name_roundtrip.1 "tRaCe" (by decide),
   C7_level_name_roundtrip.2.1 "DebuG" (by decide),
   C7_level_name_roundtrip.2.2.1 "infO" (by decide),
   C7_level_name_roundtrip.2.2.2.1 "Warning" (by decide),
   C7_level_name_roundtrip.2.2.2.2.1 "error" (by decide)⟩

/-- C8: for every name string that matches none of the five level names
after case folding, `GetLevelByName` returns the lowest-rank level
`TRACE` (the Go map lookup yields the `LogLevel` zero value) rather than
failing. -/
theorem C8_unknown_name_maps_to_trace (s : String)
    (h : toUpperS s ≠ "TRACE" ∧ toUpperS s ≠ "DEBUG" ∧ toUpperS s ≠ "INFO" ∧
         toUpperS s ≠ "WARNING" ∧ toUpperS s ≠ "ERROR") :
    GetLevelByName s = TRACE := by
  obtain ⟨h0, h1, h2, h3, h4⟩ := h
  simp [GetLevelByName, h0, h1, h2, h3, h4]

/-- Witness for C8 at the unknown name "verbose". -/
theorem C8_unknown_name_maps_to_trace_witness : GetLevelByName "verbose" = TRACE :=
  C8_unknown_name_maps_to_trace "verbose" (by decide)

/-- C10: for every `LogLevel` value outside the five defined constants,
`String` returns the empty string (the Go map lookup yields the `string`
zero value) rather than failing or returning a canonical name. -/
theorem C10_unknown_level_empty_string (l : LogLevel)
    (h : l ≠ TRACE ∧ l ≠ DEBUG ∧ l ≠ INFO ∧ l ≠ WARNING ∧ l ≠ ERROR) :
    LogLevel.String l = "" := by
  obtain ⟨h0, h1, h2, h3, h4⟩ := h
  simp [LogLevel.String, h0, h1, h2, h3, h4]

/-- Witness for C10 at rank 5 (and, via the same theorem, not at any of
the five defined ranks). -/
theorem C10_unknown_level_empty_string_witness : LogLevel.String 5 = "" :=
  C10_unknown_level_empty_string 5 (by decide)

/-- C2: for every logger with threshold `log.level` and every `Log` call:
a call strictly below the threshold returns immediately with an empty
trace (zero appender invocations, no interpolation, no timestamp
capture, no formatter invocation, logger unchanged); a call at or above
the threshold produces exactly one formatted payload and submits it —
either it is enqueued (one channel send, no appender call) or, queue
full, the overflow diagnostic is emitted (no channel send, one direct
appender call). -/
theorem C2_threshold_gate (log : Logger) (message : String) (level : LogLevel)
    (obj : List String) (ts : Nat) :
    (level < log.level → log.Log message level obj ts = (log, [])) ∧
    (log.level ≤ level →
      (enqueuedStrings (log.Log message level obj ts).2 =
          [log.formatter.FormatMessage (Sprintf message obj) log.name level ts] ∧
        appendedStrings (log.Log message level obj ts).2 = [] ∧
        (log.Log message level obj ts).1.messageChannel =
          log.messageChannel ++
            [log.formatter.FormatMessage (Sprintf message obj) log.name level ts]) ∨
      (enqueuedStrings (log.Log message level obj ts).2 = [] ∧
        appendedStrings (log.Log message level obj ts).2 =
          [log.formatter.FormatMessage "logger queue is full" log.name ERROR ts] ∧
        (log.Log message level obj ts).1.messageChannel = log.messageChannel)) := by
  constructor
  · intro h
    simp [Logger.Log, h]
  · intro h
    by_cases hq : log.messageChannel.length < LoggerBufferSize
    · left
      simp [Logger.Log, not_lt.mpr h, hq, enqueuedStrings, appendedStrings,
        LogAppender.ConsumeMessage]
    · right
      simp [Logger.Log, not_lt.mpr h, hq, enqueuedStrings, appendedStrings,
        LogAppender.ConsumeMessage]

/-- Witness for C2: on a fresh logger (threshold INFO, empty queue), a
DEBUG call is filtered out and an ERROR call is enqueued. -/
theorem C2_threshold_gate_witness :
    ((defaultLoggerFor "svc").Log "x" DEBUG [] 3 = (defaultLoggerFor "svc", [])) ∧
    ((enqueuedStrings ((defaultLoggerFor "svc").Log "started" ERROR [] 4).2 =
        [(defaultLoggerFor "svc").formatter.FormatMessage (Sprintf "started" [])
          (defaultLoggerFor "svc").name ERROR 4] ∧
      appendedStrings ((defaultLoggerFor "svc").Log "started" ERROR [] 4).2 = [] ∧
      ((defaultLoggerFor "svc").Log "started" ERROR [] 4).1.messageChannel =
        (defaultLoggerFor "svc").messageChannel ++
          [(defaultLoggerFor "svc").formatter.FormatMessage (Sprintf "started" [])
            (defaultLoggerFor "svc").name ERROR 4]) ∨
     (enqueuedStrings ((defaultLoggerFor "svc").Log "started" ERROR [] 4).2 = [] ∧
      appendedStrings ((defaultLoggerFor "svc").Log "started" ERROR [] 4).2 =
        [(defaultLoggerFor "svc").formatter.FormatMessage "logger queue is full"
          (defaultLoggerFor "svc").name ERROR 4] ∧
      ((defaultLoggerFor "svc").Log "started" ERROR [] 4).1.messageChannel =
        (defaultLoggerFor "svc").messageChannel)) :=
  ⟨(C2_threshold_gate (defaultLoggerFor "svc") "x" DEBUG [] 3).1 (by decide),
   (C2_threshold_gate (defaultLoggerFor "svc") "started" ERROR [] 4).2 (by decide)⟩

/-- C1: for every logger whose bounded queue is full
(`LoggerBufferSize` entries pending), one further `Log` call at or above
the threshold leaves the logger — in particular its queue contents —
unchanged and makes exactly one direct appender invocation, carrying the
overflow diagnostic rendered by the logger's own formatter at `ERROR`
level.  The call takes the non-blocking `default` arm of the `select`,
so it is a total step that never waits on the channel. -/
theorem C1_overflow_diagnostic (log : Logger) (message : String) (level : LogLevel)
    (obj : List String) (ts : Nat)
    (hfull : log.messageChannel.length = LoggerBufferSize)
    (hlevel : log.level ≤ level) :
    (log.Log message level obj ts).1 = log ∧
    appendedStrings (log.Log message level obj ts).2 =
      [log.formatter.FormatMessage "logger queue is full" log.name ERROR ts] ∧
    LogAction.formatCall "logger queue is full" log.name ERROR ts ∈
      (log.Log message level obj ts).2 := by
  have h1 : ¬log.level > level := not_lt.mpr hlevel
  have h2 : ¬log.messageChannel.length < LoggerBufferSize := by omega
  simp [Logger.Log, h1, h2, appendedStrings, LogAppender.ConsumeMessage]

/-- A logger whose message channel is at capacity. -/
def fullLogger : Logger :=
  { defaultLoggerFor "full" with messageChannel := List.replicate LoggerBufferSize "queued" }

/-- Witness for C1 on a logger filled to capacity. -/
theorem C1_overflow_diagnostic_witness :
    (fullLogger.Log "m" ERROR [] 5).1 = fullLogger ∧
    appendedStrings (fullLogger.Log "m" ERROR [] 5).2 =
      [fullLogger.formatter.FormatMessage "logger queue is full" fullLogger.name ERROR 5] ∧
    LogAction.formatCall "logger queue is full" fullLogger.name ERROR 5 ∈
      (fullLogger.Log "m" ERROR [] 5).2 :=
  C1_overflow_diagnostic fullLogger "m" ERROR [] 5
    (by simp [fullLogger]) (by norm_num [fullLogger, defaultLoggerFor, INFO, ERROR])

/-- C9: for every `Log` call that finds the queue full, the formatted
payload built for that call is discarded — nothing is enqueued and the
payload never reaches the appender; the only appender invocation carries
the overflow diagnostic, rendered with the same instant `ts` captured at
the start of the call. -/
theorem C9_payload_discarded_on_overflow (log : Logger) (message : String)
    (level : LogLevel) (obj : List String) (ts : Nat)
    (hfull : log.messageChannel.length = LoggerBufferSize)
    (hlevel : log.level ≤ level) :
    (log.Log message level obj ts).1.messageChannel = log.messageChannel ∧
    enqueuedStrings (log.Log message level obj ts).2 = [] ∧
    appendedStrings (log.Log message level obj ts).2 =
      [log.formatter.FormatMessage "logger queue is full" log.name ERROR ts] ∧
    LogAction.captureTs ts ∈ (log.Log message level obj ts).2 := by
  have h1 : ¬log.level > level := not_lt.mpr hlevel
  have h2 : ¬log.messageChannel.length < LoggerBufferSize := by omega
  simp [Logger.Log, h1, h2, appendedStrings, enqueuedStrings, LogAppender.ConsumeMessage]

/-- Witness for C9 on a logger filled to capacity. -/
theorem C9_payload_discarded_on_overflow_witness :
    (fullLogger.Log "payload" WARNING [] 7).1.messageChannel = fullLogger.messageChannel ∧
    enqueuedStrings (fullLogger.Log "payload" WARNING [] 7).2 = [] ∧
    appendedStrings (fullLogger.Log "payload" WARNING [] 7).2 =
      [fullLogger.formatter.FormatMessage "logger queue is full" fullLogger.name ERROR 7] ∧
    LogAction.captureTs 7 ∈ (fullLogger.Log "payload" WARNING [] 7).2 :=
  C9_payload_discarded_on_overflow fullLogger "payload" WARNING [] 7
    (by simp [fullLogger]) (by norm_num [fullLogger, defaultLoggerFor, INFO, WARNING])

/-- C3: a worker that receives the stop signal (`true` on `closed`)
while the queue is non-empty emits exactly one WARNING-level message —
rendered by the logger's formatter and handed to its appender — stating
the number of messages remaining, and terminates without delivering any
of the queued messages (the queue is left as it was, and the trace holds
exactly the one announcement); if the queue is empty at stop time the
worker terminates with no emission at all. -/
theorem C3_stop_drain_announcement (log : Logger) (ts : Nat) :
    (log.messageChannel ≠ [] →
      listenStep log (WorkerEvent.stopSignal true ts) =
        (log,
         [LogAction.formatCall (interruptedMsg log.messageChannel.length)
            log.name WARNING ts,
          LogAction.appendCall
            (log.formatter.FormatMessage (interruptedMsg log.messageChannel.length)
              log.name WARNING ts)],
         true)) ∧
    (log.messageChannel = [] →
      listenStep log (WorkerEvent.stopSignal true ts) = (log, [], true)) := by
  constructor
  · intro h
    have hlen : 0 < log.messageChannel.length := List.length_pos.mpr h
    simp [listenStep, hlen, LogAppender.ConsumeMessage]
  · intro h
    simp [listenStep, h]

/-- A logger with two undelivered messages, for the C3 witness. -/
def stopLogger : Logger :=
  { defaultLoggerFor "stop" with messageChannel := ["m1", "m2"] }

/-- Witness for C3: stop with two pending messages, and stop with an
empty queue. -/
theorem C3_stop_drain_announcement_witness :
    listenStep stopLogger (WorkerEvent.stopSignal true 9) =
      (stopLogger,
       [LogAction.formatCall (interruptedMsg stopLogger.messageChannel.length)
          stopLogger.name WARNING 9,
        LogAction.appendCall
          (stopLogger.formatter.FormatMessage
            (interruptedMsg stopLogger.messageChannel.length)
            stopLogger.name WARNING 9)],
       true) ∧
    listenStep (defaultLoggerFor "idle") (WorkerEvent.stopSignal true 9) =
      (defaultLoggerFor "idle", [], true) :=
  ⟨(C3_stop_drain_announcement stopLogger 9).1 (by decide),
   (C3_stop_drain_announcement (defaultLoggerFor "idle") 9).2 rfl⟩

/-- If a name is absent from the registry, appending a binding for it
makes the lookup find exactly that binding. -/
theorem lookupLogger_append_self (loggers : List (String × Logger)) (name : String)
    (lg : Logger) (h : lookupLogger loggers name = none) :
    lookupLogger (loggers ++ [(name, lg)]) name = some lg := by
  induction loggers with
  | nil => simp [lookupLogger]
  | cons p rest ih =>
      by_cases hn : p.1 = name
      · simp [lookupLogger, hn] at h
      · simp only [List.cons_append, lookupLogger, hn, if_false] at h ⊢
        exact ih h

/-- C6: the first `GetLogger` call for a name creates a logger whose
threshold is `INFO`, whose formatter is `DefaultLogFormatter` with
pattern `"%s - [%s] %s %s"`, whose appender is the console appender,
whose bounded queue starts empty (its capacity is the package constant
`LoggerBufferSize`, enforced at the send site in `Logger.Log`), and
whose worker is started (the trailing `Bool` of the result records
`go logger.listen()`); any repeated call with the same name returns the
stored instance and leaves the registry unchanged, with no new worker. -/
theorem C6_get_logger_create_once (loggers : List (String × Logger)) (name : String) :
    (lookupLogger loggers name = none →
      GetLogger loggers name =
        (loggers ++ [(name, defaultLoggerFor name)], defaultLoggerFor name, true)) ∧
    (∀ lg, lookupLogger loggers name = some lg →
      GetLogger loggers name = (loggers, lg, false)) ∧
    (GetLogger (GetLogger loggers name).1 name =
      ((GetLogger loggers name).1, (GetLogger loggers name).2.1, false)) ∧
    (defaultLoggerFor name).level = INFO ∧
    (defaultLoggerFor name).formatter =
      LogFormatter.defaultFormatter { Format := "%s - [%s] %s %s" } ∧
    (defaultLoggerFor name).appender = LogAppender.console ∧
    (defaultLoggerFor name).messageChannel = [] := by
  refine ⟨?_, ?_, ?_, rfl, rfl, rfl, rfl⟩
  · intro h
    simp [GetLogger, h, defaultLoggerFor]
  · intro lg h
    simp [GetLogger, h]
  · cases hl : lookupLogger loggers name with
    | some lg => simp [GetLogger, hl]
    | none =>
        have h2 := lookupLogger_append_self loggers name (defaultLoggerFor name) hl
        simp only [GetLogger, hl, defaultLoggerFor] at h2 ⊢
        simp [h2]

/-- Witness for C6: creation on an empty registry, then a repeated call
returning the stored instance with the registry unchanged. -/
theorem C6_get_logger_create_once_witness :
    GetLogger [] "svc" = ([("svc", defaultLoggerFor "svc")], defaultLoggerFor "svc", true) ∧
    GetLogger [("svc", defaultLoggerFor "svc")] "svc" =
      ([("svc", defaultLoggerFor "svc")], defaultLoggerFor "svc", false) :=
  ⟨(C6_get_logger_create_once [] "svc").1 rfl,
   (C6_get_logger_create_once [("svc", defaultLoggerFor "svc")] "svc").2.1
     (defaultLoggerFor "svc") rfl⟩

/-- C5: `FlushAllLoggers` does compute `timeToWait` as the per-logger
grace period times the logger count, exits early on an empty registry,
and stops/removes only empty-queue loggers — but it does **not** return
within that budget.  The loop guard divides the elapsed `time.Duration`
by `time.Millisecond` before comparing it against `timeToWait`, which is
a nanosecond count, so the guard still holds at twice the budget (and
keeps holding until the elapsed time reaches a million times the
budget): at 200 ms elapsed with a one-logger registry and a 100 ms
budget, the loop body still runs and stops/removes the (empty-queue)
logger instead of having already returned with the registry intact. -/
theorem C5_budget_unit_mismatch :
    GracefulLoggerShutdownTimeMc * 1 = 100000000 ∧
    100000000 < 200000000 ∧
    flushGuard 200000000 (GracefulLoggerShutdownTimeMc * 1) = true ∧
    FlushAllLoggers [("a", defaultLoggerFor "a")] [200000000] = [] := by
  exact ⟨rfl, by norm_num, by decide, by decide⟩

/-- A `Log` call at or above the threshold with room in the channel
takes the enqueue arm of the `select`: the formatted payload is appended
to the channel and the trace records the timestamp capture, the
interpolation, the formatter invocation, and the send. -/
theorem Log_enqueue_case (log : Logger) (message : String) (level : LogLevel)
    (obj : List String) (ts : Nat)
    (hlevel : log.level ≤ level) (hlen : log.messageChannel.length < LoggerBufferSize) :
    log.Log message level obj ts =
      ({ log with messageChannel := log.messageChannel ++
           [log.formatter.FormatMessage (Sprintf message obj) log.name level ts] },
       [LogAction.captureTs ts, LogAction.interpolate message obj,
        LogAction.formatCall (Sprintf message obj) log.name level ts,
        LogAction.enqueue
          (log.formatter.FormatMessage (Sprintf message obj) log.name level ts)]) := by
  simp [Logger.Log, not_lt.mpr hlevel, hlen]

/-- A batch of `Log` calls, all at or above the threshold and fitting in
the remaining channel capacity, appends exactly the per-call formatted
strings to the channel in call order, and the trace's channel sends list
those strings in the same order. -/
theorem logBatch_channel (calls : List LogCall) : ∀ log : Logger,
    (∀ c ∈ calls, log.level ≤ c.level) →
    log.messageChannel.length + calls.length ≤ LoggerBufferSize →
    (logBatch log calls).1 =
      { log with messageChannel :=
          log.messageChannel ++ expectedOutputs log.formatter log.name calls } ∧
    enqueuedStrings (logBatch log calls).2 =
      expectedOutputs log.formatter log.name calls := by
  induction calls with
  | nil =>
      intro log _ _
      constructor
      · simp [logBatch, expectedOutputs]
      · simp [logBatch, enqueuedStrings, expectedOutputs]
  | cons c rest ih =>
      intro log hlvl hcap
      have hc : log.level ≤ c.level := hlvl c (List.mem_cons_self c rest)
      have hlen : log.messageChannel.length < LoggerBufferSize := by
        simp only [List.length_cons] at hcap
        omega
      have hstep := Log_enqueue_case log c.message c.level c.args c.ts hc hlen
      obtain ⟨ih1, ih2⟩ :=
        ih { log with messageChannel := log.messageChannel ++
              [log.formatter.FormatMessage (Sprintf c.message c.args) log.name c.level c.ts] }
          (fun c' hc' => hlvl c' (List.mem_cons_of_mem c hc'))
          (by simp only [List.length_cons] at hcap
              simp only [List.length_append, List.length_cons, List.length_nil]
              omega)
      constructor
      · simp only [logBatch, hstep]
        simp only [ih1]
        simp [expectedOutputs, List.append_assoc]
      · simp only [logBatch, hstep]
        simp only [enqueuedStrings, List.filterMap_append] at ih2 ⊢
        simp [ih2, expectedOutputs, enqueuedStrings]

/-- Draining a worker with as many message-available events as there are
pending messages delivers exactly the channel contents to the appender,
in channel (FIFO) order, and leaves the channel empty. -/
theorem runWorker_drains (q : List String) : ∀ log : Logger, log.messageChannel = q →
    runWorker log (List.replicate q.length WorkerEvent.msgAvailable) =
      ({ log with messageChannel := [] }, q.map LogAction.appendCall, false) := by
  induction q with
  | nil =>
      intro log h
      cases log
      simp_all [runWorker]
  | cons s rest ih =>
      intro log h
      have hstep : listenStep log WorkerEvent.msgAvailable =
          ({ log with messageChannel := rest }, [LogAction.appendCall s], false) := by
        simp [listenStep, h, LogAppender.ConsumeMessage]
      simp only [List.length_cons, List.replicate_succ, runWorker, hstep]
      rw [ih { log with messageChannel := rest } rfl]
      simp

/-- The appender invocations of a pure delivery trace are the delivered
strings themselves. -/
theorem appendedStrings_map_appendCall (q : List String) :
    appendedStrings (q.map LogAction.appendCall) = q := by
  induction q with
  | nil => simp [appendedStrings]
  | cons s rest ih =>
      simp only [appendedStrings, List.map_cons, List.filterMap_cons] at ih ⊢
      simp [ih]

/-- C4: for a single logger starting with an empty queue and any
sequence of `Log` calls that are all successfully enqueued (levels at or
above the threshold, count within the fixed capacity), the worker
delivers exactly the per-call formatted strings to the appender, in the
exact order in which they were enqueued — strict per-logger FIFO. -/
theorem C4_fifo_delivery (log : Logger) (calls : List LogCall)
    (hstart : log.messageChannel = [])
    (hlvl : ∀ c ∈ calls, log.level ≤ c.level)
    (hcap : calls.length ≤ LoggerBufferSize) :
    enqueuedStrings (logBatch log calls).2 =
      expectedOutputs log.formatter log.name calls ∧
    (logBatch log calls).1.messageChannel =
      expectedOutputs log.formatter log.name calls ∧
    appendedStrings
        (runWorker (logBatch log calls).1
          (List.replicate ((logBatch log calls).1.messageChannel.length)
            WorkerEvent.msgAvailable)).2.1 =
      expectedOutputs log.formatter log.name calls := by
  obtain ⟨h1, h2⟩ := logBatch_channel calls log hlvl (by rw [hstart]; simpa using hcap)
  have hq : (logBatch log calls).1.messageChannel =
      expectedOutputs log.formatter log.name calls := by
    rw [h1]
    simp [hstart]
  refine ⟨h2, hq, ?_⟩
  have hr := runWorker_drains ((logBatch log calls).1.messageChannel)
    (logBatch log calls).1 rfl
  rw [hr]
  show appendedStrings (((logBatch log calls).1.messageChannel).map LogAction.appendCall) = _
  rw [hq, appendedStrings_map_appendCall]

/-- Two concrete calls at levels at or above the default threshold, for
the C4 witness. -/
def fifoCalls : List LogCall :=
  [{ message := "first", level := ERROR, args := [], ts := 1 },
   { message := "second", level := WARNING, args := [], ts := 2 }]

/-- Witness for C4 with two enqueued messages on a fresh logger. -/
theorem C4_fifo_delivery_witness :
    enqueuedStrings (logBatch (defaultLoggerFor "fifo") fifoCalls).2 =
      expectedOutputs (defaultLoggerFor "fifo").formatter
        (defaultLoggerFor "fifo").name fifoCalls ∧
    (logBatch (defaultLoggerFor "fifo") fifoCalls).1.messageChannel =
      expectedOutputs (defaultLoggerFor "fifo").formatter
        (defaultLoggerFor "fifo").name fifoCalls ∧
    appendedStrings
        (runWorker (logBatch (defaultLoggerFor "fifo") fifoCalls).1
          (List.replicate
            ((logBatch (defaultLoggerFor "fifo") fifoCalls).1.messageChannel.length)
            WorkerEvent.msgAvailable)).2.1 =
      expectedOutputs (defaultLoggerFor "fifo").formatter
        (defaultLoggerFor "fifo").name fifoCalls :=
  C4_fifo_delivery (defaultLoggerFor "fifo") fifoCalls rfl (by decide) (by decide)
